import Mathlib

/-!
Shallow embedding of `plecost/data.py` (Plecost data structures): the
version comparator `_PlecostBase.__version_cmp`, the outdated derivation in
`_PlecostBase.__init__`, the entity constructors (`PlecostWordPressInfo`,
`PlecostPluginInfo`), the configuration normalizer (`PlecostOptions.__init__`)
and the results aggregator (`PlecostResults.__init__`).

Python strings are modelled as `List Char`; loosely typed Python values as
the inductive `PyVal`; Python exceptions as the inductive `PyErr`; fallible
constructors return `Except PyErr _`.
-/

set_option autoImplicit false

namespace Plecost

/-- Python exception kinds relevant to this module. `typeError` models
`TypeError`, `valueError` the `ValueError` raised by a failing `int()` call,
`wordListNotFound` the repo's `PlecostWordListNotFound`.  `versionParseError`
models the typed `VersionParseError` the specification document postulates;
no code path of the source ever produces it. -/
inductive PyErr where
  | typeError
  | valueError
  | wordListNotFound
  | versionParseError
deriving DecidableEq

/-- A loosely typed Python value, as far as this module inspects values. -/
inductive PyVal where
  | pyNone
  | pyStr (s : List Char)
  | pyInt (n : Int)
  | pyBool (b : Bool)
  | pyFn (id : Nat)
  | pyDict
  | pyList (xs : List PyVal)

/-- Models `isinstance(v, basestring)`. -/
def isBaseString : PyVal → Bool
  | .pyStr _ => true
  | _ => false

/-- Models `isinstance(v, int)` — in Python, `bool` is a subtype of `int`. -/
def isInstInt : PyVal → Bool
  | .pyInt _ => true
  | .pyBool _ => true
  | _ => false

/-- Models `v is None`. -/
def isNone : PyVal → Bool
  | .pyNone => true
  | _ => false

/-- ASCII lowercasing of one character, as `str.lower()` does per character. -/
def asciiLower (c : Char) : Char :=
  if 'A' ≤ c ∧ c ≤ 'Z' then Char.ofNat (c.toNat + 32) else c

/-- Models `s.lower()` on a Python `str`. -/
def pyLower (s : List Char) : List Char := s.map asciiLower

/-- The marker string `"trunk"`. -/
def trunkChars : List Char := ['t', 'r', 'u', 'n', 'k']

/-- Models `s.split('.')` on a Python `str`: every occurrence of `'.'` separates,
empty pieces are kept, and `"".split('.') == ['']`. -/
def pySplitDot : List Char → List (List Char)
  | [] => [[]]
  | c :: rest =>
    match pySplitDot rest with
    | [] => [[]]
    | p :: ps => if c = '.' then [] :: p :: ps else (c :: p) :: ps

/-- Python whitespace accepted (and stripped) by `int()`. -/
def isPySpace (c : Char) : Bool :=
  c == ' ' || c == '\t' || c == '\n' || c == '\r' || c == '\x0b' || c == '\x0c'

/-- Strip leading and trailing whitespace. -/
def pyStrip (s : List Char) : List Char :=
  ((s.dropWhile isPySpace).reverse.dropWhile isPySpace).reverse

/-- Value of a non-empty all-digit string. -/
def digitsVal (s : List Char) : Nat :=
  s.foldl (fun n c => 10 * n + (c.toNat - 48)) 0

/-- A non-empty run of ASCII digits, or failure. -/
def parseDigits (s : List Char) : Option Nat :=
  if s.isEmpty then Option.none
  else if s.all Char.isDigit then Option.some (digitsVal s)
  else Option.none

/-- Python 2 `int(s)` on a `str`: optional surrounding whitespace, optional
sign, then a non-empty run of ASCII digits; anything else raises
`ValueError` (modelled as `Option.none`). -/
def pyIntParse (s : List Char) : Option Int :=
  match pyStrip s with
  | [] => Option.none
  | c :: rest =>
    if c = '-' then (parseDigits rest).map (fun n => -(n : Int))
    else if c = '+' then (parseDigits rest).map (fun n => (n : Int))
    else (parseDigits (c :: rest)).map (fun n => (n : Int))

/-- Models `[int(y) for y in l]`: `int()` is applied to every element, left to
right, and the first failure raises `ValueError`. -/
def mapPyInt : List (List Char) → Except PyErr (List Int)
  | [] => .ok []
  | c :: cs =>
    match pyIntParse c with
    | Option.none => .error .valueError
    | Option.some n =>
      match mapPyInt cs with
      | .error e => .error e
      | .ok ns => .ok (n :: ns)

/-- The characters of the literal `'.0.0.0.0'` appended by `tup`. -/
def padChars : List Char := ['.', '0', '.', '0', '.', '0', '.', '0']

/-- Models `tup = lambda x: [int(y) for y in (x+'.0.0.0.0').split('.')][:4]`. -/
def tup (x : List Char) : Except PyErr (List Int) :=
  match mapPyInt (pySplitDot (x ++ padChars)) with
  | .error e => .error e
  | .ok l => .ok (l.take 4)

/-- Python 2 `cmp` on two lists of ints: lexicographic, a strict prefix is
smaller. -/
def pyCmpIntList : List Int → List Int → Int
  | [], [] => 0
  | [], _ :: _ => -1
  | _ :: _, [] => 1
  | a :: as, b :: bs =>
    if a < b then -1 else if b < a then 1 else pyCmpIntList as bs

/-- Models `_PlecostBase.__version_cmp(version1, version2)`: `1` when version1 is
greater, `-1` when version2 is greater, `0` when equal.  A lowercased input
equal to `"trunk"` wins outright, `version1` checked first; otherwise both
strings go through `tup` (whose `int()` calls may raise) and the 4-element
int lists are compared with `cmp`. -/
def version_cmp (version1 version2 : List Char) : Except PyErr Int :=
  if pyLower version1 = trunkChars then .ok 1
  else if pyLower version2 = trunkChars then .ok (-1)
  else
    match tup version1 with
    | .error e => .error e
    | .ok t1 =>
      match tup version2 with
      | .error e => .error e
      | .ok t2 => .ok (pyCmpIntList t1 t2)

example : version_cmp "1.2.3".toList "1.3.0".toList = .ok (-1) := rfl
example : version_cmp "2.0".toList "2.0.0.0".toList = .ok 0 := rfl
example : version_cmp "TRunk".toList "9.9".toList = .ok 1 := rfl
example : version_cmp "trunk".toList "trunk".toList = .ok 1 := rfl
example : version_cmp "1.2-beta".toList "1.0".toList = .error .valueError := rfl

/-- Models `_PlecostBase.__init__(ver1, ver2)`, returning the Python value stored in
`self._outdated`.  The source's condition is literally
`if ver1 is None or ver1 is None` (it never tests `ver2`), and it assigns
`False` — not `None` — in that branch; when `ver1` is a string but `ver2` is
not (including `None`), the `isinstance` check raises `TypeError`; otherwise
`_outdated` is `True` exactly when `__version_cmp(ver1, ver2) == -1`. -/
def plecostBaseInit (ver1 ver2 : PyVal) : Except PyErr PyVal :=
  match ver1 with
  | .pyNone => .ok (.pyBool false)
  | .pyStr s1 =>
    match ver2 with
    | .pyStr s2 =>
      match version_cmp s1 s2 with
      | .error e => .error e
      | .ok c => .ok (.pyBool (c = -1))
    | _ => .error .typeError
  | _ => .error .typeError

/-- Keyword arguments to `PlecostWordPressInfo(**kwargs)`; `Option.none`
means the keyword was not passed. -/
structure WPKwargs where
  current_version : Option PyVal
  last_version : Option PyVal

/-- A constructed `PlecostWordPressInfo` object: its private fields plus the
inherited `_outdated`. -/
structure PlecostWordPressInfo where
  current_version : List Char
  last_version_available : List Char
  outdated : PyVal

/-- The `PlecostWordPressInfo.is_outdated` property (inherited). -/
def PlecostWordPressInfo.is_outdated (w : PlecostWordPressInfo) : PyVal :=
  w.outdated

/-- Models `PlecostWordPressInfo.__init__`: both versions must be strings
(`TypeError` otherwise, also when absent/None), then the base initializer
runs on them. -/
def plecostWordPressInfoInit (k : WPKwargs) : Except PyErr PlecostWordPressInfo :=
  let cv := k.current_version.getD .pyNone
  let lv := k.last_version.getD .pyNone
  match cv, lv with
  | .pyStr s1, .pyStr s2 =>
    match plecostBaseInit (.pyStr s1) (.pyStr s2) with
    | .error e => .error e
    | .ok o => .ok ⟨s1, s2, o⟩
  | _, _ => .error .typeError

/-- Keyword arguments to `PlecostPluginInfo(**kwargs)`. -/
structure PluginKwargs where
  plugin_name : Option PyVal
  plugin_uri : Option PyVal
  current_version : Option PyVal
  last_version : Option PyVal
  cves : Option PyVal
  exploits : Option PyVal

/-- A constructed `PlecostPluginInfo` object. -/
structure PlecostPluginInfo where
  plugin_name : PyVal
  plugin_uri : List Char
  current_version : PyVal
  last_version : PyVal
  cves : PyVal
  exploits : PyVal
  outdated : PyVal

/-- The `PlecostPluginInfo.is_outdated` property (inherited). -/
def PlecostPluginInfo.is_outdated (p : PlecostPluginInfo) : PyVal :=
  p.outdated

/-- Models `PlecostPluginInfo.__init__`: only `plugin_uri` must be a string; the
version kwargs (default `None`) go to the base initializer unchecked. -/
def plecostPluginInfoInit (k : PluginKwargs) : Except PyErr PlecostPluginInfo :=
  let pn := k.plugin_name.getD .pyNone
  let pu := k.plugin_uri.getD .pyNone
  let cv := k.current_version.getD .pyNone
  let lv := k.last_version.getD .pyNone
  let cs := k.cves.getD (.pyList [])
  let ex := k.exploits.getD (.pyList [])
  match pu with
  | .pyStr u =>
    match plecostBaseInit cv lv with
    | .error e => .error e
    | .ok o => .ok ⟨pn, u, cv, lv, cs, ex, o⟩
  | _ => .error .typeError

/-- Keyword arguments to `PlecostOptions(**kwargs)`. -/
structure PlecostOptionsKwargs where
  proxy : Option PyVal
  target : Option PyVal
  verbosity : Option PyVal
  concurrency : Option PyVal
  report : Option PyVal
  log_function : Option PyVal
  colorize : Option PyVal
  wordlist : Option PyVal

/-- A constructed `PlecostOptions` object (`target` and `wordlist` are
strings by the time construction succeeds). -/
structure PlecostOptions where
  proxy : PyVal
  target : List Char
  verbosity : PyVal
  concurrency : PyVal
  report_filename : PyVal
  log_function : PyVal
  colorize : PyVal
  wordlist : List Char

/-- The characters of `"http"`. -/
def httpChars : List Char := ['h', 't', 't', 'p']

/-- The characters of `"http://"`. -/
def httpSchemeChars : List Char := ['h', 't', 't', 'p', ':', '/', '/']

/-- The built-in default wordlist filename `"plugin_list_200.txt"`. -/
def defaultWordlistName : List Char := "plugin_list_200.txt".toList

/-- Modelled from the spec: the embedded wordlist storage path is
`os.path.join(get_data_folder(), name)` — `get_data_folder` lives in
`plecost/utils.py`, which is not part of the shown source; per the spec
("resolve to its embedded storage path") it is modelled as the data folder
joined with the name by a path separator, the data folder itself being an
arbitrary parameter. -/
def joinPath (dataFolder name : List Char) : List Char :=
  dataFolder ++ '/' :: name

/-- Models `PlecostOptions.__init__`.  `dataFolder` stands for `get_data_folder()`
and `wordlists` for `list_wordlists()` (both defined in repository modules
not part of the shown source, hence kept abstract), `fsExists` for
`os.path.exists`.  Defaults as in the source: `proxy` an empty dict, `verbosity=0`,
`concurrency=4`, `report=None`, `log_function=stdout.write` (modelled as a
function value), `colorize=True`, `wordlist=None`.  Checks, in source
order: `target` a string, `concurrency` an int, `log_function` not `None`,
`verbosity` an int (each failing with `TypeError`); then the `http`
prefixing of `target`; then wordlist resolution (embedded name → joined
data path; `None` → joined default; otherwise must exist on disk or
`PlecostWordListNotFound`; a non-string, non-None wordlist reaches
`os.path.exists` which rejects it with `TypeError`). -/
def plecostOptionsInit (dataFolder : List Char) (wordlists : List (List Char))
    (fsExists : List Char → Bool) (k : PlecostOptionsKwargs) :
    Except PyErr PlecostOptions :=
  let proxy := k.proxy.getD .pyDict
  let target := k.target.getD .pyNone
  let verbosity := k.verbosity.getD (.pyInt 0)
  let concurrency := k.concurrency.getD (.pyInt 4)
  let report := k.report.getD .pyNone
  let logf := k.log_function.getD (.pyFn 0)
  let colorize := k.colorize.getD (.pyBool true)
  let wordlist := k.wordlist.getD .pyNone
  match target with
  | .pyStr t =>
    if isInstInt concurrency then
      if isNone logf then .error .typeError
      else if isInstInt verbosity then
        let t2 := if httpChars.isPrefixOf t then t else httpSchemeChars ++ t
        match wordlist with
        | .pyStr w =>
          if w ∈ wordlists then
            .ok ⟨proxy, t2, verbosity, concurrency, report, logf, colorize,
                 joinPath dataFolder w⟩
          else if fsExists w then
            .ok ⟨proxy, t2, verbosity, concurrency, report, logf, colorize, w⟩
          else .error .wordListNotFound
        | .pyNone =>
          .ok ⟨proxy, t2, verbosity, concurrency, report, logf, colorize,
               joinPath dataFolder defaultWordlistName⟩
        | _ => .error .typeError
      else .error .typeError
    else .error .typeError
  | _ => .error .typeError

/-- The `wordpress_info` keyword: either an actual `PlecostWordPressInfo`
object or some other Python value (which `isinstance` rejects). -/
inductive WPArg where
  | obj (w : PlecostWordPressInfo)
  | raw (v : PyVal)

/-- An element of the `plugins` list: a `PlecostPluginInfo` object or some
other Python value. -/
inductive PluginElem where
  | obj (p : PlecostPluginInfo)
  | raw (v : PyVal)

/-- The `plugins` keyword: a Python list of elements, or a non-list value. -/
inductive PluginsArg where
  | pylist (xs : List PluginElem)
  | raw (v : PyVal)

/-- Keyword arguments to `PlecostResults(**kwargs)`. -/
structure ResultsKwargs where
  target : Option PyVal
  start_time : Option PyVal
  end_time : Option PyVal
  wordpress_info : Option WPArg
  plugins : Option PluginsArg

/-- A constructed `PlecostResults` object. -/
structure PlecostResults where
  target : List Char
  start_time : PyVal
  end_time : PyVal
  wordpress_info : PlecostWordPressInfo
  plugins : List PlecostPluginInfo
  outdated_plugins : List PlecostPluginInfo

/-- Models `plugin.is_outdated is True`: identity with the `True` singleton. -/
def isOutdatedTrue (p : PlecostPluginInfo) : Bool :=
  match p.outdated with
  | .pyBool true => true
  | _ => false

/-- The element-wise `isinstance(plugin, PlecostPluginInfo)` loop: the first
non-plugin element raises `TypeError`. -/
def extractPlugins : List PluginElem → Except PyErr (List PlecostPluginInfo)
  | [] => .ok []
  | .obj p :: rest =>
    match extractPlugins rest with
    | .error e => .error e
    | .ok ps => .ok (p :: ps)
  | .raw _ :: _ => .error .typeError

/-- Models `PlecostResults.__init__`.  `nowS`/`nowE` stand for the two
`datetime.now()` default values.  Checks: `target` a string,
`wordpress_info` a `PlecostWordPressInfo`, `plugins` a list of
`PlecostPluginInfo` (each failing with `TypeError`); then
`outdated_plugins` is filled by the `plugin.is_outdated is True` loop. -/
def plecostResultsInit (nowS nowE : PyVal) (k : ResultsKwargs) :
    Except PyErr PlecostResults :=
  let tgt := k.target.getD .pyNone
  let st := k.start_time.getD nowS
  let et := k.end_time.getD nowE
  let wp := k.wordpress_info.getD (.raw .pyNone)
  let pl := k.plugins.getD (.raw .pyNone)
  match tgt with
  | .pyStr t =>
    match wp with
    | .obj w =>
      match pl with
      | .pylist xs =>
        match extractPlugins xs with
        | .error e => .error e
        | .ok ps => .ok ⟨t, st, et, w, ps, ps.filter isOutdatedTrue⟩
      | .raw _ => .error .typeError
    | .raw _ => .error .typeError
  | _ => .error .typeError

/-! ### Spec-side predicates and the specification comparator -/

/-- A dot-separated component that is a non-empty run of ASCII digits (a
non-negative integer, as the spec's data-model invariant requires). -/
def numericComp (c : List Char) : Bool :=
  !c.isEmpty && c.all Char.isDigit

/-- Every dot-separated component of the version string is a non-negative
integer. -/
def allNumeric (v : List Char) : Bool :=
  (pySplitDot v).all numericComp

/-- The version string has a non-empty, non-numeric dot-separated component
(the malformed-input condition of the spec, e.g. `"1.2-beta"`). -/
def hasBadComponent (v : List Char) : Bool :=
  (pySplitDot v).any (fun c => !c.isEmpty && (pyIntParse c).isNone)

/-- The lowercased string equals `"trunk"`. -/
def isTrunk (v : List Char) : Bool := pyLower v = trunkChars

/-- A valid version string per the spec's data-model invariant: the trunk
marker, or a dot-separated sequence of non-negative integers. -/
def validVersion (v : List Char) : Bool := isTrunk v || allNumeric v

/-- The parsed integer value of a component (0 as a don't-care fallback for
unparseable components; only applied under `numericComp`). -/
def parseVal (c : List Char) : Int := (pyIntParse c).getD 0

/-- Written from the spec's words (§4.1): the string is split on `.` and
padded on the right with `"0"` to exactly 4 components, each parsed as a
non-negative integer. -/
def specTup (v : List Char) : List Int :=
  ((pySplitDot v ++ List.replicate 4 ['0']).take 4).map parseVal

/-- Written from the spec's words (§4.1): the two 4-tuples are compared
lexicographically (`-1` less, `0` equal, `1` greater). -/
def specVersionCompare (v1 v2 : List Char) : Int :=
  pyCmpIntList (specTup v1) (specTup v2)

/-- The wordlist option value resolves: it is an embedded wordlist name, is
absent/None (the default applies), or is an existing filesystem path. -/
def wordlistResolves (wordlists : List (List Char)) (fsExists : List Char → Bool) :
    PyVal → Bool
  | .pyStr w => decide (w ∈ wordlists) || fsExists w
  | .pyNone => true
  | _ => false

/-! ### Helper lemmas -/

theorem pySplitDot_ne_nil (l : List Char) : pySplitDot l ≠ [] := by
  cases l with
  | nil => simp [pySplitDot]
  | cons c rest =>
    simp only [pySplitDot]
    cases h : pySplitDot rest with
    | nil => simp
    | cons p ps =>
      by_cases hc : c = '.' <;> simp [hc]

theorem pySplitDot_append (a b : List Char) :
    pySplitDot (a ++ '.' :: b) = pySplitDot a ++ pySplitDot b := by
  induction a with
  | nil =>
    simp only [List.nil_append, pySplitDot]
    cases h : pySplitDot b with
    | nil => exact absurd h (pySplitDot_ne_nil b)
    | cons p ps => simp
  | cons c a ih =>
    simp only [List.cons_append, pySplitDot, List.append_eq]
    rw [ih]
    cases h : pySplitDot a with
    | nil => exact absurd h (pySplitDot_ne_nil a)
    | cons p ps =>
      by_cases hc : c = '.' <;> simp [hc]

theorem pySplitDot_pad (v : List Char) :
    pySplitDot (v ++ padChars) = pySplitDot v ++ [['0'], ['0'], ['0'], ['0']] := by
  have h : v ++ padChars = v ++ '.' :: ['0', '.', '0', '.', '0', '.', '0'] := rfl
  rw [h, pySplitDot_append]
  rfl

theorem digit_not_space (x : Char) (h : x.isDigit = true) : isPySpace x = false := by
  by_contra hs
  rw [Bool.not_eq_false] at hs
  simp only [isPySpace, Bool.or_eq_true, beq_iff_eq] at hs
  rcases hs with ((((h1 | h1) | h1) | h1) | h1) | h1 <;>
    (subst h1; exact absurd h (by decide))

theorem dropWhile_eq_self_of_all {α : Type} {p : α → Bool} (l : List α)
    (h : ∀ x ∈ l, p x = false) : l.dropWhile p = l := by
  cases l with
  | nil => rfl
  | cons a l => simp [List.dropWhile_cons, h a (by simp)]

theorem pyStrip_of_no_space (s : List Char)
    (h : ∀ x ∈ s, isPySpace x = false) : pyStrip s = s := by
  have h1 : s.dropWhile isPySpace = s := dropWhile_eq_self_of_all s h
  have h2 : s.reverse.dropWhile isPySpace = s.reverse :=
    dropWhile_eq_self_of_all _ (by intro x hx; exact h x (by simpa using hx))
  rw [pyStrip, h1, h2, List.reverse_reverse]

theorem pyIntParse_numeric (c : List Char) (h : numericComp c = true) :
    pyIntParse c = Option.some ((digitsVal c : Nat) : Int) := by
  obtain ⟨hne, hall⟩ : c.isEmpty = false ∧ c.all Char.isDigit = true := by
    rw [numericComp, Bool.and_eq_true, Bool.not_eq_true'] at h
    exact h
  have hdig : ∀ x ∈ c, Char.isDigit x = true := by
    intro x hx
    exact List.all_eq_true.mp hall x hx
  cases c with
  | nil => simp at hne
  | cons c0 rest =>
    have hd0 : Char.isDigit c0 = true := hdig c0 (by simp)
    have hstrip : pyStrip (c0 :: rest) = c0 :: rest :=
      pyStrip_of_no_space _ (fun x hx => digit_not_space x (hdig x hx))
    have hminus : ¬(c0 = '-') := by
      intro hc; subst hc; exact absurd hd0 (by decide)
    have hplus : ¬(c0 = '+') := by
      intro hc; subst hc; exact absurd hd0 (by decide)
    simp only [pyIntParse, hstrip, if_neg hminus, if_neg hplus, parseDigits,
      List.isEmpty_cons, hall]
    simp

theorem mapPyInt_ok (l : List (List Char)) (h : ∀ c ∈ l, numericComp c = true) :
    mapPyInt l = .ok (l.map parseVal) := by
  induction l with
  | nil => rfl
  | cons c cs ih =>
    have hc := h c (List.mem_cons_self c cs)
    have hcs := ih (fun x hx => h x (List.mem_cons_of_mem c hx))
    simp only [mapPyInt, pyIntParse_numeric c hc, hcs, List.map_cons]
    simp [parseVal, pyIntParse_numeric c hc]

theorem mapPyInt_err (l : List (List Char))
    (h : ∃ c ∈ l, pyIntParse c = Option.none) :
    mapPyInt l = .error .valueError := by
  induction l with
  | nil => simp at h
  | cons c cs ih =>
    obtain ⟨d, hd, hdn⟩ := h
    rcases List.mem_cons.mp hd with hdc | hdcs
    · subst hdc
      simp [mapPyInt, hdn]
    · cases hc : pyIntParse c with
      | none => simp [mapPyInt, hc]
      | some n =>
        have := ih ⟨d, hdcs, hdn⟩
        simp [mapPyInt, hc, this]

theorem tup_ok (v : List Char) (h : allNumeric v = true) :
    tup v = .ok (specTup v) := by
  have hrep : ([['0'], ['0'], ['0'], ['0']] : List (List Char)) =
      List.replicate 4 ['0'] := rfl
  have hall : ∀ c ∈ pySplitDot v ++ List.replicate 4 ['0'], numericComp c = true := by
    intro c hc
    rcases List.mem_append.mp hc with hcv | hcr
    · rw [allNumeric, List.all_eq_true] at h
      exact h c hcv
    · have : c = ['0'] := List.eq_of_mem_replicate hcr
      subst this; rfl
  simp only [tup, pySplitDot_pad, hrep, mapPyInt_ok _ hall, specTup,
    List.map_take]

theorem pyCmp_self (a : List Int) : pyCmpIntList a a = 0 := by
  induction a with
  | nil => rfl
  | cons x xs ih => simp [pyCmpIntList, ih]

theorem pyCmp_rev (a b : List Int) : pyCmpIntList b a = -pyCmpIntList a b := by
  induction a generalizing b with
  | nil => cases b <;> simp [pyCmpIntList]
  | cons x xs ih =>
    cases b with
    | nil => simp [pyCmpIntList]
    | cons y ys =>
      rcases lt_trichotomy x y with hxy | hxy | hxy
      · simp [pyCmpIntList, hxy, not_lt_of_gt hxy]
      · subst hxy
        simp [pyCmpIntList, ih]
      · simp [pyCmpIntList, hxy, not_lt_of_gt hxy]

theorem take_append_congr {α : Type} (a b pads : List α)
    (h : a.take 4 = b.take 4) :
    (a ++ pads).take 4 = (b ++ pads).take 4 := by
  have hlen : min 4 a.length = min 4 b.length := by
    have := congrArg List.length h
    simpa [List.length_take] using this
  have hsub : 4 - a.length = 4 - b.length := by omega
  rw [List.take_append_eq_append_take, List.take_append_eq_append_take, h, hsub]

theorem version_cmp_numeric (v1 v2 : List Char)
    (h1 : isTrunk v1 = false) (h2 : isTrunk v2 = false)
    (hn1 : allNumeric v1 = true) (hn2 : allNumeric v2 = true) :
    version_cmp v1 v2 = .ok (specVersionCompare v1 v2) := by
  have h1' : ¬(pyLower v1 = trunkChars) := by
    simpa [isTrunk] using h1
  have h2' : ¬(pyLower v2 = trunkChars) := by
    simpa [isTrunk] using h2
  simp [version_cmp, h1', h2', tup_ok v1 hn1, tup_ok v2 hn2, specVersionCompare]

/-! ### Claim theorems -/

/-- C2: if `v1` equals `"trunk"` case-insensitively, `__version_cmp(v1, v2)`
returns greater (`1`), regardless of `v2` — including when `v2` is also
`"trunk"`, since the `v1` branch is checked first; in particular
`compare("trunk", x)` is greater for any non-`"trunk"` `x`. -/
theorem trunk_compares_greater (v1 v2 : List Char)
    (h : pyLower v1 = trunkChars) : version_cmp v1 v2 = .ok 1 := by
  simp [version_cmp, h]

theorem trunk_compares_greater_witness :
    version_cmp "TRUNK".toList "trunk".toList = .ok 1 ∧
    version_cmp "trunk".toList "1.2.3".toList = .ok 1 :=
  ⟨trunk_compares_greater _ _ (by decide), trunk_compares_greater _ _ (by decide)⟩

/-- C3: for non-`"trunk"` version strings whose dot-separated components are
all non-negative integers, `__version_cmp` computes exactly what the spec
describes (`specVersionCompare`): split on `'.'`, pad on the right with
`"0"` to exactly 4 components, parse each component, compare the 4-tuples
lexicographically.  The claim's consequences
`compare("2.0","2.0.0.0") = equal` and `compare("1.2.3","1.3.0") = less`
are checked in the witness. -/
theorem version_cmp_matches_spec (v1 v2 : List Char)
    (h1 : isTrunk v1 = false) (h2 : isTrunk v2 = false)
    (hn1 : allNumeric v1 = true) (hn2 : allNumeric v2 = true) :
    version_cmp v1 v2 = .ok (specVersionCompare v1 v2) :=
  version_cmp_numeric v1 v2 h1 h2 hn1 hn2

theorem version_cmp_matches_spec_witness :
    version_cmp "2.0".toList "2.0.0.0".toList = .ok 0 ∧
    version_cmp "1.2.3".toList "1.3.0".toList = .ok (-1) :=
  ⟨(version_cmp_matches_spec "2.0".toList "2.0.0.0".toList
      (by decide) (by decide) (by decide) (by decide)).trans rfl,
   (version_cmp_matches_spec "1.2.3".toList "1.3.0".toList
      (by decide) (by decide) (by decide) (by decide)).trans rfl⟩

/-- C8: for valid version strings (trunk marker or all-numeric dotted),
`__version_cmp` is antisymmetric — swapping the arguments negates the
result (`less`↔`greater`, `equal`↔`equal`), also when exactly one argument
is `"trunk"` — with the sole exception of `"trunk"` versus `"trunk"`,
excluded by hypothesis. -/
theorem version_cmp_antisymm (v1 v2 : List Char)
    (hv1 : validVersion v1 = true) (hv2 : validVersion v2 = true)
    (hnn : ¬(isTrunk v1 = true ∧ isTrunk v2 = true)) (c : Int)
    (h : version_cmp v1 v2 = .ok c) : version_cmp v2 v1 = .ok (-c) := by
  by_cases h1 : isTrunk v1 = true
  · have h2 : isTrunk v2 = false := by
      by_contra hx
      exact hnn ⟨h1, by simpa using hx⟩
    have ht1 : pyLower v1 = trunkChars := by simpa [isTrunk] using h1
    have ht2 : ¬(pyLower v2 = trunkChars) := by simpa [isTrunk] using h2
    have e1 : version_cmp v1 v2 = .ok 1 := by simp [version_cmp, ht1]
    rw [e1] at h
    obtain rfl : (1 : Int) = c := by simpa using h
    simp [version_cmp, ht1, ht2]
  · have h1' : isTrunk v1 = false := by simpa using h1
    have ht1 : ¬(pyLower v1 = trunkChars) := by simpa [isTrunk] using h1'
    by_cases h2 : isTrunk v2 = true
    · have ht2 : pyLower v2 = trunkChars := by simpa [isTrunk] using h2
      have e1 : version_cmp v1 v2 = .ok (-1) := by simp [version_cmp, ht1, ht2]
      rw [e1] at h
      obtain rfl : (-1 : Int) = c := by simpa using h
      have : version_cmp v2 v1 = .ok 1 := by simp [version_cmp, ht2]
      simpa using this
    · have h2' : isTrunk v2 = false := by simpa using h2
      have hn1 : allNumeric v1 = true := by
        rw [validVersion, Bool.or_eq_true] at hv1
        rcases hv1 with hx | hx
        · exact absurd hx h1
        · exact hx
      have hn2 : allNumeric v2 = true := by
        rw [validVersion, Bool.or_eq_true] at hv2
        rcases hv2 with hx | hx
        · exact absurd hx h2
        · exact hx
      have e1 := version_cmp_numeric v1 v2 h1' h2' hn1 hn2
      rw [e1] at h
      have hc : specVersionCompare v1 v2 = c := by simpa using h
      have e2 := version_cmp_numeric v2 v1 h2' h1' hn2 hn1
      rw [e2]
      rw [specVersionCompare] at hc ⊢
      rw [pyCmp_rev, hc]

theorem version_cmp_antisymm_witness :
    version_cmp "2.0".toList "1.2".toList = .ok 1 := by
  have h := version_cmp_antisymm "1.2".toList "2.0".toList
    (by decide) (by decide) (by decide) (-1) rfl
  simpa using h

/-- C9 counterexample: at `("1.2-beta", "1.0")` — `v1` not `"trunk"` and
containing the non-empty, non-numeric component `"2-beta"` — the comparison
raises the untyped `ValueError` of `int()`, not the typed
`VersionParseError` the claim asserts (which no code path produces). -/
theorem bad_component_not_typed_error :
    version_cmp "1.2-beta".toList "1.0".toList = .error .valueError ∧
    PyErr.valueError ≠ PyErr.versionParseError :=
  ⟨rfl, by decide⟩

/-- C9 amended: when neither input is `"trunk"` (case-insensitively) and the
first input has a non-empty, non-numeric dot-separated component — or the
first is fully numeric and the second has such a component — the comparison
fails, but with the untyped `ValueError` that `int()` raises and which the
source lets propagate, not with a typed `VersionParseError`. -/
theorem bad_component_value_error (v1 v2 : List Char)
    (h1 : isTrunk v1 = false) (h2 : isTrunk v2 = false)
    (hb : hasBadComponent v1 = true ∨
      (allNumeric v1 = true ∧ hasBadComponent v2 = true)) :
    version_cmp v1 v2 = .error .valueError := by
  have h1' : ¬(pyLower v1 = trunkChars) := by simpa [isTrunk] using h1
  have h2' : ¬(pyLower v2 = trunkChars) := by simpa [isTrunk] using h2
  have tup_err : ∀ v : List Char, hasBadComponent v = true →
      tup v = .error .valueError := by
    intro v hv
    rw [hasBadComponent, List.any_eq_true] at hv
    obtain ⟨cc, hcc, hprop⟩ := hv
    rw [Bool.and_eq_true] at hprop
    have hnone : pyIntParse cc = Option.none := by
      have := hprop.2
      rwa [Option.isNone_iff_eq_none] at this
    have herr : mapPyInt (pySplitDot (v ++ padChars)) = .error .valueError := by
      apply mapPyInt_err
      refine ⟨cc, ?_, hnone⟩
      rw [pySplitDot_pad]
      exact List.mem_append_left _ hcc
    simp [tup, herr]
  rcases hb with hb | ⟨hn1, hb⟩
  · simp [version_cmp, h1', h2', tup_err v1 hb]
  · simp [version_cmp, h1', h2', tup_ok v1 hn1, tup_err v2 hb]

theorem bad_component_value_error_witness :
    version_cmp "1.0".toList "1.2-beta".toList = .error .valueError :=
  bad_component_value_error "1.0".toList "1.2-beta".toList
    (by decide) (by decide) (Or.inr ⟨by decide, by decide⟩)

/-- C10: for non-`"trunk"` version strings (all components non-negative
integers, per the data-model invariant) that agree on their first 4
dot-separated components, the comparison returns equal — components past
the fourth are discarded. -/
theorem components_past_fourth_ignored (v1 v2 : List Char)
    (h1 : isTrunk v1 = false) (h2 : isTrunk v2 = false)
    (hn1 : allNumeric v1 = true) (hn2 : allNumeric v2 = true)
    (h4 : (pySplitDot v1).take 4 = (pySplitDot v2).take 4) :
    version_cmp v1 v2 = .ok 0 := by
  have e := version_cmp_numeric v1 v2 h1 h2 hn1 hn2
  have hs : specTup v1 = specTup v2 := by
    rw [specTup, specTup, take_append_congr _ _ _ h4]
  rw [e, specVersionCompare, hs, pyCmp_self]

theorem components_past_fourth_ignored_witness :
    version_cmp "1.2.3.4.5".toList "1.2.3.4.9".toList = .ok 0 :=
  components_past_fourth_ignored "1.2.3.4.5".toList "1.2.3.4.9".toList
    (by decide) (by decide) (by decide) (by decide) (by decide)

/-- C1: evaluation of the code at the claim's inputs.  A `PlecostPluginInfo`
constructed with `plugin_uri="u"`, `current_version=None`,
`last_version=None` succeeds but has `is_outdated == False` — not `None` as
the claim (and the source's own `is_outdated` docstring, "None if unknown")
requires; and with `current_version="1"` and `last_version=None` the
constructor raises `TypeError` instead of yielding unknown, because
`_PlecostBase.__init__` tests `ver1 is None or ver1 is None`, never
`ver2`. -/
theorem plugin_null_versions_eval :
    (plecostPluginInfoInit
        ⟨Option.none, Option.some (.pyStr ['u']), Option.some .pyNone,
         Option.some .pyNone, Option.none, Option.none⟩).map
      PlecostPluginInfo.is_outdated = .ok (.pyBool false) ∧
    plecostPluginInfoInit
        ⟨Option.none, Option.some (.pyStr ['u']), Option.some (.pyStr ['1']),
         Option.some .pyNone, Option.none, Option.none⟩ = .error .typeError :=
  ⟨rfl, rfl⟩

/-- C4: for every successfully constructed `PlecostResults`,
`outdated_plugins` is exactly the filter of `plugins` by
`is_outdated is True` (hence contains exactly the outdated entries in the
same relative order) and is a sublist — an order-preserving subsequence —
of `plugins`.  It is stored at construction; the property only returns the
stored list. -/
theorem outdated_plugins_filter (nowS nowE : PyVal) (k : ResultsKwargs)
    (r : PlecostResults) (h : plecostResultsInit nowS nowE k = .ok r) :
    r.outdated_plugins = r.plugins.filter isOutdatedTrue ∧
    r.outdated_plugins.Sublist r.plugins := by
  simp only [plecostResultsInit] at h
  repeat split at h
  all_goals try (exact Except.noConfusion h)
  simp only [Except.ok.injEq] at h
  subst h
  exact ⟨rfl, List.filter_sublist _⟩

/-- Sample WordPress-info object for the results witness. -/
def wpSample : PlecostWordPressInfo := ⟨['4'], ['5'], .pyBool true⟩

/-- Sample outdated plugin for the results witness. -/
def pluginOutdated : PlecostPluginInfo :=
  ⟨.pyNone, ['a'], .pyStr ['1'], .pyStr ['2'], .pyList [], .pyList [],
   .pyBool true⟩

/-- Sample up-to-date plugin for the results witness. -/
def pluginCurrent : PlecostPluginInfo :=
  ⟨.pyNone, ['b'], .pyStr ['2'], .pyStr ['2'], .pyList [], .pyList [],
   .pyBool false⟩

/-- Sample keyword arguments for `PlecostResults`. -/
def resultsKwargsSample : ResultsKwargs :=
  ⟨Option.some (.pyStr ['t']), Option.none, Option.none,
   Option.some (.obj wpSample),
   Option.some (.pylist [.obj pluginOutdated, .obj pluginCurrent])⟩

/-- The `PlecostResults` object `resultsKwargsSample` constructs. -/
def resultsSample : PlecostResults :=
  ⟨['t'], .pyNone, .pyNone, wpSample, [pluginOutdated, pluginCurrent],
   [pluginOutdated]⟩

theorem outdated_plugins_filter_witness :
    resultsSample.outdated_plugins =
      resultsSample.plugins.filter isOutdatedTrue ∧
    resultsSample.outdated_plugins.Sublist resultsSample.plugins :=
  outdated_plugins_filter .pyNone .pyNone resultsKwargsSample resultsSample rfl

/-- A filesystem on which no path exists (for concrete instantiations). -/
def noFs : List Char → Bool := fun _ => false

theorem isOk_ok {ε α : Type} (a : α) :
    (Except.ok a : Except ε α).isOk = true := rfl

theorem isOk_error {ε α : Type} (e : ε) :
    (Except.error e : Except ε α).isOk = false := rfl

theorem options_isOk (df : List Char) (wls : List (List Char))
    (fs : List Char → Bool) (k : PlecostOptionsKwargs) :
    (plecostOptionsInit df wls fs k).isOk =
      (isBaseString (k.target.getD .pyNone) &&
       isInstInt (k.concurrency.getD (.pyInt 4)) &&
       !isNone (k.log_function.getD (.pyFn 0)) &&
       isInstInt (k.verbosity.getD (.pyInt 0)) &&
       wordlistResolves wls fs (k.wordlist.getD .pyNone)) := by
  rcases htgt : k.target.getD .pyNone with _ | t | n | b | fid | _ | xs <;>
  rcases hwl : k.wordlist.getD .pyNone with _ | w | n2 | b2 | fid2 | _ | xs2 <;>
  cases hconc : isInstInt (k.concurrency.getD (.pyInt 4)) <;>
  cases hlog : isNone (k.log_function.getD (.pyFn 0)) <;>
  cases hverb : isInstInt (k.verbosity.getD (.pyInt 0)) <;>
    simp only [plecostOptionsInit, htgt, hwl, hconc, hlog, hverb] <;>
    first
      | (by_cases hmem : w ∈ wls <;>
         cases hfs : fs w <;>
           simp [hmem, hfs, isBaseString, wordlistResolves, isOk_ok,
             isOk_error])
      | simp [isBaseString, wordlistResolves, isOk_ok, isOk_error]

/-- C5 counterexample: normalizing options holding only `target="t"` with `log_function`
absent succeeds (it silently defaults to `stdout.write`), where the claim
says normalization must fail when `log_function` is absent. -/
theorem options_log_function_absent_ok :
    (plecostOptionsInit [] [] noFs
      ⟨Option.none, Option.some (.pyStr ['t']), Option.none, Option.none,
       Option.none, Option.none, Option.none, Option.none⟩).isOk = true := rfl

/-- C5 amended: normalization fails (with `TypeError`, the code's
`ConfigurationError` equivalent) exactly when `target` is missing or not a
string, `concurrency` is not an int (Python counts `bool` as `int`),
`log_function` is explicitly `None` (when absent it defaults to
`stdout.write` and passes), `verbosity` is not an int, or the wordlist
value fails to resolve (not an embedded name, not absent, and not an
existing path); in every other case it returns a fully populated options
object. -/
theorem options_init_ok_iff (df : List Char) (wls : List (List Char))
    (fs : List Char → Bool) (k : PlecostOptionsKwargs) :
    (plecostOptionsInit df wls fs k).isOk = true ↔
      (isBaseString (k.target.getD .pyNone) = true ∧
       isInstInt (k.concurrency.getD (.pyInt 4)) = true ∧
       isNone (k.log_function.getD (.pyFn 0)) = false ∧
       isInstInt (k.verbosity.getD (.pyInt 0)) = true ∧
       wordlistResolves wls fs (k.wordlist.getD .pyNone) = true) := by
  rw [options_isOk]
  simp [Bool.and_eq_true, Bool.not_eq_true', and_assoc]

theorem options_init_ok_iff_witness :
    (plecostOptionsInit [] [] noFs
      ⟨Option.none, Option.some (.pyStr ['t']), Option.none, Option.none,
       Option.none, Option.some .pyNone, Option.none, Option.none⟩).isOk =
      false := by
  have h := options_init_ok_iff [] [] noFs
    ⟨Option.none, Option.some (.pyStr ['t']), Option.none, Option.none,
     Option.none, Option.some .pyNone, Option.none, Option.none⟩
  rcases hok : (plecostOptionsInit [] [] noFs
      ⟨Option.none, Option.some (.pyStr ['t']), Option.none, Option.none,
       Option.none, Option.some .pyNone, Option.none, Option.none⟩).isOk
  · rfl
  · have := (h.mp hok).2.2.1
    exact absurd this (by decide)

/-- C6: with the other options well-typed, the wordlist option resolves as
the spec says: an embedded wordlist name resolves to its embedded storage
path (`joinPath` of the data folder); an omitted (`None`) wordlist resolves
to the built-in default `plugin_list_200.txt` under the data folder; any
other string must be an existing filesystem path, otherwise construction
fails with `PlecostWordListNotFound`. -/
theorem wordlist_resolution (df : List Char) (wls : List (List Char))
    (fs : List Char → Bool) (k : PlecostOptionsKwargs)
    (htgt : isBaseString (k.target.getD .pyNone) = true)
    (hconc : isInstInt (k.concurrency.getD (.pyInt 4)) = true)
    (hlog : isNone (k.log_function.getD (.pyFn 0)) = false)
    (hverb : isInstInt (k.verbosity.getD (.pyInt 0)) = true) :
    (∀ w : List Char, k.wordlist.getD .pyNone = .pyStr w → w ∈ wls →
        (plecostOptionsInit df wls fs k).map (fun o => o.wordlist) =
          .ok (joinPath df w)) ∧
    (k.wordlist.getD .pyNone = .pyNone →
        (plecostOptionsInit df wls fs k).map (fun o => o.wordlist) =
          .ok (joinPath df defaultWordlistName)) ∧
    (∀ w : List Char, k.wordlist.getD .pyNone = .pyStr w → w ∉ wls →
        fs w = false →
        plecostOptionsInit df wls fs k = .error .wordListNotFound) := by
  rcases hT : k.target.getD .pyNone with _ | t | n | b | fid | _ | xs <;>
    rw [hT, isBaseString] at htgt <;> try exact Bool.noConfusion htgt
  refine ⟨?_, ?_, ?_⟩
  · intro w hwl hmem
    simp [plecostOptionsInit, hT, hwl, hconc, hlog, hverb, hmem, Except.map]
  · intro hwl
    simp [plecostOptionsInit, hT, hwl, hconc, hlog, hverb, Except.map]
  · intro w hwl hmem hfs
    simp [plecostOptionsInit, hT, hwl, hconc, hlog, hverb, hmem, hfs]

/-- Kwargs naming the embedded wordlist `"w"`. -/
def kWlEmbedded : PlecostOptionsKwargs :=
  ⟨Option.none, Option.some (.pyStr ['t']), Option.none, Option.none,
   Option.none, Option.none, Option.none, Option.some (.pyStr ['w'])⟩

/-- Kwargs with the wordlist omitted. -/
def kWlAbsent : PlecostOptionsKwargs :=
  ⟨Option.none, Option.some (.pyStr ['t']), Option.none, Option.none,
   Option.none, Option.none, Option.none, Option.none⟩

/-- Kwargs naming a wordlist that is neither embedded nor on disk. -/
def kWlMissing : PlecostOptionsKwargs :=
  ⟨Option.none, Option.some (.pyStr ['t']), Option.none, Option.none,
   Option.none, Option.none, Option.none, Option.some (.pyStr ['x'])⟩

theorem wordlist_resolution_witness :
    ((plecostOptionsInit ['d'] [['w']] noFs kWlEmbedded).map
        (fun o => o.wordlist) = .ok (joinPath ['d'] ['w'])) ∧
    ((plecostOptionsInit ['d'] [['w']] noFs kWlAbsent).map
        (fun o => o.wordlist) = .ok (joinPath ['d'] defaultWordlistName)) ∧
    (plecostOptionsInit ['d'] [['w']] noFs kWlMissing =
      .error .wordListNotFound) :=
  ⟨(wordlist_resolution ['d'] [['w']] noFs kWlEmbedded rfl rfl rfl rfl).1
      ['w'] rfl (by simp),
   (wordlist_resolution ['d'] [['w']] noFs kWlAbsent rfl rfl rfl rfl).2.1 rfl,
   (wordlist_resolution ['d'] [['w']] noFs kWlMissing rfl rfl rfl rfl).2.2
      ['x'] rfl (by simp) rfl⟩

/-- C7: every target string accepted by normalization is stored with
`"http://"` prepended when it does not start with `"http"`, and unchanged
otherwise. -/
theorem target_http_prepend (df : List Char) (wls : List (List Char))
    (fs : List Char → Bool) (k : PlecostOptionsKwargs) (t : List Char)
    (o : PlecostOptions) (htgt : k.target.getD .pyNone = .pyStr t)
    (h : plecostOptionsInit df wls fs k = .ok o) :
    o.target = (if httpChars.isPrefixOf t then t else httpSchemeChars ++ t) := by
  simp only [plecostOptionsInit, htgt] at h
  by_cases hconc : isInstInt (k.concurrency.getD (.pyInt 4)) = true
  case neg => rw [if_neg hconc] at h; exact Except.noConfusion h
  rw [if_pos hconc] at h
  by_cases hlog : isNone (k.log_function.getD (.pyFn 0)) = true
  case pos => rw [if_pos hlog] at h; exact Except.noConfusion h
  rw [if_neg hlog] at h
  by_cases hverb : isInstInt (k.verbosity.getD (.pyInt 0)) = true
  case neg => rw [if_neg hverb] at h; exact Except.noConfusion h
  rw [if_pos hverb] at h
  rcases hwl : k.wordlist.getD .pyNone with _ | w | n2 | b2 | fid2 | _ | xs2 <;>
    simp only [hwl] at h
  all_goals first
    | exact Except.noConfusion h
    | (simp only [Except.ok.injEq] at h; subst h; rfl)
    | (by_cases hmem : w ∈ wls
       case pos =>
         rw [if_pos hmem] at h
         simp only [Except.ok.injEq] at h; subst h; rfl
       case neg =>
         rw [if_neg hmem] at h
         by_cases hfs : fs w = true
         case pos =>
           rw [if_pos hfs] at h
           simp only [Except.ok.injEq] at h; subst h; rfl
         case neg =>
           rw [if_neg hfs] at h
           exact Except.noConfusion h)

/-- Keyword arguments holding only `target="example.com"`. -/
def kTargetOnly : PlecostOptionsKwargs :=
  ⟨Option.none, Option.some (.pyStr "example.com".toList), Option.none,
   Option.none, Option.none, Option.none, Option.none, Option.none⟩

/-- The options object normalizing only `target="example.com"` produces under
an empty wordlist registry. -/
def optsSample : PlecostOptions :=
  ⟨.pyDict, "http://example.com".toList, .pyInt 0, .pyInt 4, .pyNone,
   .pyFn 0, .pyBool true, joinPath [] defaultWordlistName⟩

theorem target_http_prepend_witness :
    optsSample.target = "http://example.com".toList :=
  (target_http_prepend [] [] noFs kTargetOnly "example.com".toList optsSample
      rfl rfl).trans (by decide)

end Plecost
